import Mathlib

/-!
Verification development for the panoptisana desktop client's data
synchronization and filtering core (`src/main/asana-api.js` and
`src/main/store.js`).  The JavaScript source is embedded shallowly:
pure functions become Lean functions, the stateful poll cycle becomes
explicit state passing over a store-state record, fallible remote
calls become `Except`-valued oracles supplied by an environment.
-/

namespace Panoptisana

/-! ## Strings: JS `toLowerCase` and `String.prototype.includes` -/

/-- JS `s.toLowerCase()` (ASCII case folding), written over the
character list so that the kernel can evaluate it. -/
def lowerStr (s : String) : String := ⟨s.data.map Char.toLower⟩

/-- JS `s.includes(sub)`: substring containment, over character lists. -/
def strIncludes (s sub : String) : Bool :=
  (List.range (s.data.length + 1)).any (fun i => sub.data.isPrefixOf (s.data.drop i))

/-! ## Data model

Tasks and projects are duck-typed records in the source; the filter
code (`_applyFilters`, asana-api.js:216-240) reads only `gid` and
`name`, the assignee checks (asana-api.js:171,182) read `assignee.gid`.
`followers` carries the collaborator list a remote search result may
have; no code in the sync core reads it. -/

structure Assignee where
  gid : String
  name : Option String
  deriving DecidableEq, Repr

structure Item where
  gid : String
  name : Option String
  assignee : Option Assignee
  followers : List String
  deriving DecidableEq, Repr

/-! ## Filter policy (`_applyFilters`, asana-api.js:216-240) -/

/-- The three filter lists, after the source's `|| []` defaulting
(asana-api.js:217-219): exclusion GIDs, exclusion name patterns,
inclusion name patterns. -/
structure FilterSettings where
  gidList : List String
  excludePatterns : List String
  includePatterns : List String
  deriving DecidableEq, Repr

/-- Pattern match used both for inclusion and exclusion: the pattern is
truthy (non-empty) and the lower-cased name contains the lower-cased
pattern (`p && name.includes(p.toLowerCase())`). -/
def patternHits (name : String) (p : String) : Bool :=
  (!(p == "")) && strIncludes name (lowerStr p)

/-- The body of the predicate passed to `items.filter` in
`_applyFilters` (asana-api.js:221-239): inclusion allowlist first,
then exclusion by GID, then exclusion by name pattern. -/
def keepItem (fs : FilterSettings) (it : Item) : Bool :=
  let name := lowerStr (it.name.getD "")
  if fs.includePatterns.length > 0 &&
      !(fs.includePatterns.any (patternHits name)) then false
  else if fs.gidList.contains it.gid then false
  else if fs.excludePatterns.any (patternHits name) then false
  else true

/-- `_applyFilters` for fixed filter lists. -/
def applyFilters (items : List Item) (fs : FilterSettings) : List Item :=
  items.filter (keepItem fs)

/-- Stage 1 of the filter: inclusion allowlist (asana-api.js:225-228). -/
def inclKeep (fs : FilterSettings) (it : Item) : Bool :=
  !(fs.includePatterns.length > 0 &&
    !(fs.includePatterns.any (patternHits (lowerStr (it.name.getD "")))))

/-- Stage 2 of the filter: exclusion by GID (asana-api.js:231). -/
def gidKeep (fs : FilterSettings) (it : Item) : Bool :=
  !(fs.gidList.contains it.gid)

/-- Stage 3 of the filter: exclusion by name pattern (asana-api.js:234-235). -/
def exclKeep (fs : FilterSettings) (it : Item) : Bool :=
  !(fs.excludePatterns.any (patternHits (lowerStr (it.name.getD ""))))

/-! ## Settings (the flat record read by `_poll` and `_applyFilters`)

Fields absent in the JavaScript settings object are `none`; the source
defaults them (`|| []`, truthiness checks) at each use site. -/

structure Settings where
  apiKeyVerified : Bool
  showOnlyMyTasks : Bool
  currentUserId : Option String
  selectedUserIds : Option (List String)
  excludedTaskGids : Option (List String)
  excludedProjectGids : Option (List String)
  excludedTaskPatterns : Option (List String)
  excludedProjectPatterns : Option (List String)
  includedTaskPatterns : Option (List String)
  includedProjectPatterns : Option (List String)
  deriving DecidableEq, Repr

inductive EntityType
  | task
  | project
  deriving DecidableEq, Repr

/-- The per-type list selection with `|| []` defaulting
(asana-api.js:217-219). -/
def filtersFor (ty : EntityType) (s : Settings) : FilterSettings :=
  match ty with
  | .task =>
      { gidList := s.excludedTaskGids.getD []
        excludePatterns := s.excludedTaskPatterns.getD []
        includePatterns := s.includedTaskPatterns.getD [] }
  | .project =>
      { gidList := s.excludedProjectGids.getD []
        excludePatterns := s.excludedProjectPatterns.getD []
        includePatterns := s.includedProjectPatterns.getD [] }

/-- `_applyFilters(items, type, settings)` (asana-api.js:216-240). -/
def applyFiltersFor (items : List Item) (ty : EntityType) (s : Settings) : List Item :=
  applyFilters items (filtersFor ty s)

/-! ## Single-user mode assignee filter (asana-api.js:170-171) -/

/-- The strict client-side assignee re-filter applied after the remote
search in single-user mode:
`tasks.filter(t => t.assignee && t.assignee.gid === settings.currentUserId)`. -/
def singleUserFilter (uid : String) (tasks : List Item) : List Item :=
  tasks.filter (fun t =>
    match t.assignee with
    | some a => a.gid == uid
    | none => false)

/-! ## Multi-user merge (asana-api.js:172-187)

`_poll` fetches one task list per selected user, then walks the lists in
order with a `seen` set: a task is pushed onto the output exactly when
its gid has not been pushed before and its assignee is in the selected
set; only pushed tasks mark their gid as seen. -/

/-- `task.assignee && selectedSet.has(task.assignee.gid)` (asana-api.js:182). -/
def taskPasses (selected : List String) (t : Item) : Bool :=
  match t.assignee with
  | some a => selected.contains a.gid
  | none => false

/-- One iteration of the inner `for (const task of set)` loop
(asana-api.js:181-185); the accumulator is (`seen`, output so far). -/
def mergeStep (selected : List String) (acc : List String × List Item) (t : Item) :
    List String × List Item :=
  if (!(acc.1.contains t.gid)) && taskPasses selected t then
    (t.gid :: acc.1, acc.2 ++ [t])
  else acc

/-- The nested merge loops of `_poll`'s multi-user branch
(asana-api.js:179-187), starting from `seen = {}` and `tasks = []`. -/
def mergeTaskSets (selected : List String) (taskSets : List (List Item)) : List Item :=
  (taskSets.foldl (fun acc set => set.foldl (mergeStep selected) acc) ([], [])).2

/-- Specification-side first-seen-wins deduplication by gid. -/
def dedupGo (seen : List String) : List Item → List String × List Item
  | [] => (seen, [])
  | t :: ts =>
    if seen.contains t.gid then dedupGo seen ts
    else
      let r := dedupGo (t.gid :: seen) ts
      (r.1, t :: r.2)

/-- Keep the first record for each gid. -/
def dedupFirstByGid (l : List Item) : List Item := (dedupGo [] l).2

/-! ## HTTP layer: `_fetch` rate-limit retry (asana-api.js:20-49)

The server is modelled as a function from request index to response.
Since only the 429 branch re-requests and it increments `retryCount` by
one, the `i`-th request of one `_fetch` call carries `retryCount = i`.
The result records the call outcome, the number of requests issued, and
the list of backoff waits (in ms) actually performed. -/

/-- `MAX_RETRIES` (asana-api.js:8). -/
def MAX_RETRIES : Nat := 3

/-- An HTTP response: status code, parsed `Retry-After` header (absent
means the source falls back to 30), and body text. `response.ok` is
derived from the status as in the fetch standard. -/
structure HttpResp where
  status : Nat
  retryAfter : Option Nat
  body : String
  deriving DecidableEq, Repr

/-- `response.ok`: status in the 2xx range. -/
def respOk (r : HttpResp) : Bool := 200 ≤ r.status && r.status < 300

/-- The retry loop of `_fetch`: on 429 with `retryCount < MAX_RETRIES`,
wait `min(retryAfter, 120) * 1000` ms and re-request with
`retryCount + 1`; otherwise a non-ok response throws and an ok response
returns the body. -/
def fetchGo (server : Nat → HttpResp) (retryCount : Nat) :
    Except String String × Nat × List Nat :=
  let r := server retryCount
  if h : r.status = 429 ∧ retryCount < MAX_RETRIES then
    let retryAfter := r.retryAfter.getD 30
    let waitMs := min retryAfter 120 * 1000
    let rec_result := fetchGo server (retryCount + 1)
    (rec_result.1, rec_result.2.1 + 1, waitMs :: rec_result.2.2)
  else if respOk r then (Except.ok r.body, 1, [])
  else (Except.error ("Asana API " ++ toString r.status ++ ": " ++ r.body), 1, [])
termination_by MAX_RETRIES + 1 - retryCount
decreasing_by
  obtain ⟨-, h2⟩ := h
  omega

/-! ## Pagination: `_fetchAll` (asana-api.js:52-69)

A mocked paginated source is the list of pages the server answers in
order.  `result.next_page?.offset || null` treats a missing `next_page`,
a missing `offset`, and an empty-string offset as "no further page". -/

structure Page (α : Type) where
  data : List α
  next : Option String
  deriving DecidableEq, Repr

/-- Truthiness of `result.next_page?.offset || null`. -/
def hasNext {α : Type} (p : Page α) : Bool :=
  match p.next with
  | some s => !(s == "")
  | none => false

/-- The do/while loop of `_fetchAll`: request a page, append
`result.data`, continue while a truthy offset came back.  Returns the
accumulated data and the number of requests performed. -/
def fetchAllGo {α : Type} : List (Page α) → List α × Nat
  | [] => ([], 0)
  | p :: rest =>
    if hasNext p then
      let r := fetchAllGo rest
      (p.data ++ r.1, r.2 + 1)
    else (p.data, 1)

/-! ## Persistent Store: settings (store.js:115-132, 164-182)

Settings live in a SQLite table `settings(key TEXT PRIMARY KEY, value
TEXT)`.  `setSettings(updates)` runs the prepared
`INSERT OR REPLACE INTO settings (key, value) VALUES (?, ?)` once per
entry of the batch inside a single transaction (`_setManySettings`);
`getSettings()` reads all rows into one object.  Values are JSON
documents; `JSON.parse ∘ JSON.stringify` is the identity on them, so the
table is modelled as rows holding the JSON value itself. -/

inductive JVal
  | jnum (n : Int)
  | jstr (s : String)
  | jbool (b : Bool)
  | jnull
  deriving DecidableEq, Repr

/-- `INSERT OR REPLACE` keyed on the `key` primary-key column. -/
def upsertSetting (k : String) (v : JVal) :
    List (String × JVal) → List (String × JVal)
  | [] => [(k, v)]
  | (k', v') :: rest =>
    if k' = k then (k, v) :: rest else (k', v') :: upsertSetting k v rest

/-- `_setManySettings` (store.js:127-131): one transaction applying
every entry of the batch, in `Object.entries` order, as one atomic state
transition. -/
def setManySettings (entries : List (String × JVal)) (rows : List (String × JVal)) :
    List (String × JVal) :=
  entries.foldl (fun r kv => upsertSetting kv.1 kv.2 r) rows

/-- `setSettings(updates)` (store.js:179-182). -/
def setSettings (updates : List (String × JVal)) (rows : List (String × JVal)) :
    List (String × JVal) :=
  setManySettings updates rows

/-- `getSettings()` (store.js:166-177): the settings object, as the map
from key to stored value. -/
def getSettings (rows : List (String × JVal)) (k : String) : Option JVal :=
  (rows.find? (fun r => r.1 == k)).map (fun r => r.2)

theorem getSettings_cons (a : String) (b : JVal) (rest : List (String × JVal)) (k : String) :
    getSettings ((a, b) :: rest) k = if a = k then some b else getSettings rest k := by
  simp only [getSettings]
  by_cases h : a = k
  · subst h
    rw [List.find?_cons_of_pos]
    · simp
    · simp
  · rw [List.find?_cons_of_neg]
    · rw [if_neg h]
    · simp [h]

/-! ## Persistent Store: startup recovery (store.js:16-82)

The constructor first copies the existing database file over the backup
path (`_backup`, store.js:33-41), then `_openDatabase`
(store.js:43-82) opens the primary file, runs `PRAGMA quick_check`, and
on any failure closes the handle, restores the backup over the primary
and reopens; if that reopen throws it unlinks the primary and opens a
fresh (hence empty) database.  SQLite semantics modelled: opening a
missing path creates an empty database; a corrupt file either makes the
constructor throw or opens but fails `quick_check`. -/

/-- An on-disk database file. -/
inductive DiskFile
  | good (content : Nat)
  | corruptOpenFails
  | corruptCheckFails
  deriving DecidableEq, Repr

/-- The two database file paths of the store. -/
structure Fs where
  dbFile : Option DiskFile
  backupFile : Option DiskFile
  deriving DecidableEq, Repr

/-- An opened database handle. -/
inductive Db
  | empty
  | withContent (content : Nat)
  | corrupt
  deriving DecidableEq, Repr

/-- `new Database(path)`: SQLite creates an empty database at a missing
path, opens a readable file (even a corrupt one whose damage only
`quick_check` reveals), and throws on an unreadable one. -/
def sqliteOpen : Option DiskFile → Except String Db
  | none => Except.ok Db.empty
  | some (DiskFile.good c) => Except.ok (Db.withContent c)
  | some DiskFile.corruptOpenFails => Except.error "unable to open database file"
  | some DiskFile.corruptCheckFails => Except.ok Db.corrupt

/-- The quick_check pragma run right after opening. -/
def quickCheck : Db → String
  | Db.corrupt => "malformed"
  | _ => "ok"

/-- `_backup()` (store.js:33-41): copy the current primary file, if any,
over the backup path before opening. -/
def backupStep (fs : Fs) : Fs :=
  match fs.dbFile with
  | some f => { fs with backupFile := some f }
  | none => fs

/-- The try/catch recovery cascade of `_openDatabase()`
(store.js:44-75): try { open; quick_check } catch { restore backup and
reopen; on a second failure unlink and open fresh }.  The reopen after a
restore runs no integrity check, exactly as in the source. -/
def openDatabase (fs : Fs) : Except String Db :=
  let tried : Except String Db :=
    match sqliteOpen fs.dbFile with
    | Except.ok db =>
      if quickCheck db = "ok" then Except.ok db
      else Except.error ("Integrity check failed: " ++ quickCheck db)
    | Except.error e => Except.error e
  match tried with
  | Except.ok db => Except.ok db
  | Except.error _ =>
    match fs.backupFile with
    | some b =>
      (match sqliteOpen (some b) with
       | Except.ok db => Except.ok db
       | Except.error _ => sqliteOpen none)
    | none => sqliteOpen none

/-- The remainder of the constructor after the recovery cascade hands
back a handle: the `journal_mode`/`foreign_keys` pragmas
(store.js:78-79), `_initSchema()` with its CREATE TABLE and meta
statements (store.js:84-113) and `_prepareStatements()`
(store.js:115-132).  None of it is wrapped in a try; on a malformed
database SQLite raises SQLITE_CORRUPT at the first statement that
touches the image, and that propagates out of the constructor.  On a
healthy handle it succeeds and leaves the stored data unchanged (schema
creation is IF NOT EXISTS). -/
def initOnHandle : Db → Except String Db
  | Db.corrupt => Except.error "SQLITE_CORRUPT: database disk image is malformed"
  | db => Except.ok db

/-- The Store constructor (store.js:16-29): back up, open with the
recovery cascade, then run the pragmas, schema initialization and
statement preparation on the resulting handle. -/
def storeInit (fs : Fs) : Except String Db :=
  match openDatabase (backupStep fs) with
  | Except.error e => Except.error e
  | Except.ok db => initOnHandle db

/-! ## The poll cycle `_poll` (asana-api.js:149-214)

The remote is an environment of `Except`-valued oracles, one per fetch
operation; the store state carries the settings snapshot and the three
cache keys.  `pollGo` returns the post-cycle store state and the list of
events delivered to the subscriber (`_onUpdate` is assumed installed, as
`startPolling` sets it).  The catch block turns any thrown fetch error
into a single error event, so `pollGo` is total: nothing escapes the
cycle. -/

structure User where
  gid : String
  name : Option String
  deriving DecidableEq, Repr

structure RemoteEnv where
  workspaces : Except String (List String)
  usersOf : String → Except String (List User)
  tasksFor : String → Option String → Except String (List Item)
  projectsOf : String → Except String (List Item)

structure StoreState where
  settings : Settings
  cachedUsers : List User
  cachedTasks : List Item
  cachedProjects : List Item
  deriving DecidableEq, Repr

inductive PollEvent
  | update (tasks : List Item) (projects : List Item)
  | error (msg : String)
  deriving DecidableEq, Repr

/-- JS truthiness of `settings.currentUserId` (a string field). -/
def currentUserTruthy (s : Settings) : Bool :=
  match s.currentUserId with
  | some u => !(u == "")
  | none => false

/-- JS truthiness of `settings.selectedUserIds && settings.selectedUserIds.length > 0`. -/
def selectedTruthy (s : Settings) : Bool :=
  match s.selectedUserIds with
  | some l => decide (l.length > 0)
  | none => false

/-- `Promise.all` over the per-user fetches: first rejection (in list
order in this sequential model) rejects the whole batch. -/
def collectExcept {α : Type} : List (Except String α) → Except String (List α)
  | [] => Except.ok []
  | x :: xs =>
    match x with
    | Except.error e => Except.error e
    | Except.ok a =>
      match collectExcept xs with
      | Except.error e => Except.error e
      | Except.ok rest => Except.ok (a :: rest)

/-- The user-cache step (asana-api.js:160-164): fetch users only when
the cache is empty, otherwise keep the cached list. -/
def usersFetch (env : RemoteEnv) (wg : String) (st : StoreState) :
    Except String (List User) :=
  if st.cachedUsers.isEmpty then env.usersOf wg else Except.ok st.cachedUsers

/-- The task-fetch branch of `_poll` (asana-api.js:166-191): single-user
mode with the strict assignee re-filter, multi-user mode with the
first-seen-wins merge, or the unfiltered workspace query. -/
def pollTasksFetch (env : RemoteEnv) (wg : String) (s : Settings) :
    Except String (List Item) :=
  if s.showOnlyMyTasks && currentUserTruthy s then
    match env.tasksFor wg s.currentUserId with
    | Except.error e => Except.error e
    | Except.ok ts => Except.ok (singleUserFilter (s.currentUserId.getD "") ts)
  else if selectedTruthy s then
    match collectExcept ((s.selectedUserIds.getD []).map
        (fun uid => env.tasksFor wg (some uid))) with
    | Except.error e => Except.error e
    | Except.ok sets => Except.ok (mergeTaskSets (s.selectedUserIds.getD []) sets)
  else env.tasksFor wg none

/-- `_poll` (asana-api.js:149-214): the whole cycle, with its catch
block.  Early returns (unverified key, no workspace) emit no event; a
fetch failure at any point emits exactly the one error event; the
success path writes both caches and emits the one update event. -/
def pollGo (env : RemoteEnv) (st : StoreState) : StoreState × List PollEvent :=
  let s := st.settings
  if !s.apiKeyVerified then (st, [])
  else
    match env.workspaces with
    | Except.error e => (st, [PollEvent.error e])
    | Except.ok [] => (st, [])
    | Except.ok (wg :: _) =>
      match usersFetch env wg st with
      | Except.error e => (st, [PollEvent.error e])
      | Except.ok us =>
        let st1 := { st with cachedUsers := us }
        match pollTasksFetch env wg s with
        | Except.error e => (st1, [PollEvent.error e])
        | Except.ok tasks0 =>
          let tasks := applyFiltersFor tasks0 EntityType.task s
          match env.projectsOf wg with
          | Except.error e => (st1, [PollEvent.error e])
          | Except.ok ps =>
            let projects := applyFiltersFor ps EntityType.project s
            ({ st1 with cachedTasks := tasks, cachedProjects := projects },
              [PollEvent.update tasks projects])

/-- The first remote-fetch failure, if any, along the cycle's execution
path (same control flow as `pollGo`, projected to the error message). -/
def fetchFailure (env : RemoteEnv) (st : StoreState) : Option String :=
  let s := st.settings
  if !s.apiKeyVerified then none
  else
    match env.workspaces with
    | Except.error e => some e
    | Except.ok [] => none
    | Except.ok (wg :: _) =>
      match usersFetch env wg st with
      | Except.error e => some e
      | Except.ok _ =>
        match pollTasksFetch env wg s with
        | Except.error e => some e
        | Except.ok _ =>
          match env.projectsOf wg with
          | Except.error e => some e
          | Except.ok _ => none

/-! ## Poll scheduling (asana-api.js:119-147)

The `AsanaAPI` class has exactly two scheduling fields, `_pollTimer`
and `_onUpdate` (asana-api.js:14-15); nothing records whether a `_poll`
cycle is in flight.  The interval callback
`setInterval(() => this._poll(), intervalMs)` (asana-api.js:128) and
`refresh()` (asana-api.js:145-147) invoke `_poll()` unconditionally.
`_poll` is `async` and awaits its fetches, so a trigger that arrives
while a cycle is suspended (awaiting a response or a rate-limit backoff
in `_fetch`) starts a second, concurrently interleaved cycle.
`inFlight` counts cycles started but not yet completed. -/

inductive EngineTrigger
  | tick
  | manualRefresh
  | cycleComplete
  deriving DecidableEq, Repr

/-- The implemented trigger handling: every tick and every manual
refresh starts a cycle, with no guard consulted. -/
def engineStep (inFlight : Nat) : EngineTrigger → Nat
  | EngineTrigger.tick => inFlight + 1
  | EngineTrigger.manualRefresh => inFlight + 1
  | EngineTrigger.cycleComplete => inFlight - 1

/-! ## Theorems -/

theorem keepItem_eq_stages (fs : FilterSettings) (it : Item) :
    keepItem fs it = (inclKeep fs it && (gidKeep fs it && exclKeep fs it)) := by
  simp only [keepItem, inclKeep, gidKeep, exclKeep]
  by_cases h1 : fs.includePatterns.length > 0 &&
      !(fs.includePatterns.any (patternHits (lowerStr (it.name.getD "")))) <;>
    by_cases h2 : fs.gidList.contains it.gid <;>
    by_cases h3 : fs.excludePatterns.any (patternHits (lowerStr (it.name.getD ""))) <;>
    simp [h1, h2, h3]

/-! Permutation invariance helpers: `any`, `contains` and `length`
look only at list contents. -/

theorem listAnyPerm {α : Type} {l₁ l₂ : List α} (h : l₁.Perm l₂) (f : α → Bool) :
    l₁.any f = l₂.any f := by
  cases h1 : l₁.any f <;> cases h2 : l₂.any f <;> try rfl
  · simp only [List.any_eq_false] at h1
    simp only [List.any_eq_true] at h2
    obtain ⟨x, hx, hfx⟩ := h2
    exact absurd hfx (by simpa using h1 x (h.mem_iff.mpr hx))
  · simp only [List.any_eq_false] at h2
    simp only [List.any_eq_true] at h1
    obtain ⟨x, hx, hfx⟩ := h1
    exact absurd hfx (by simpa using h2 x (h.mem_iff.mp hx))

theorem listContainsPerm {α : Type} [BEq α] [LawfulBEq α] {l₁ l₂ : List α}
    (h : l₁.Perm l₂) (a : α) : l₁.contains a = l₂.contains a := by
  cases h1 : l₁.contains a <;> cases h2 : l₂.contains a <;> try rfl
  all_goals simp_all [List.contains, List.elem_iff, h.mem_iff]

theorem keepItem_perm (fs fs' : FilterSettings) (it : Item)
    (hg : fs.gidList.Perm fs'.gidList)
    (he : fs.excludePatterns.Perm fs'.excludePatterns)
    (hi : fs.includePatterns.Perm fs'.includePatterns) :
    keepItem fs it = keepItem fs' it := by
  simp only [keepItem]
  rw [hi.length_eq, listAnyPerm hi, listContainsPerm hg, listAnyPerm he]

/-- C3: the filter policy applies inclusion, then exclusion-by-GID, then
exclusion-by-name-pattern, in that order; its result depends only on the
contents of the three lists (invariant under permutation of each); and on
the spec's scenario (inclusion `["launch"]`, exclusion-GID `["42"]`) the
result is exactly the item with gid "1". -/
theorem applyFilters_precedence :
    (∀ (items : List Item) (fs : FilterSettings),
        applyFilters items fs =
          ((items.filter (inclKeep fs)).filter (gidKeep fs)).filter (exclKeep fs))
    ∧ (∀ (items : List Item) (fs fs' : FilterSettings),
        fs.gidList.Perm fs'.gidList →
        fs.excludePatterns.Perm fs'.excludePatterns →
        fs.includePatterns.Perm fs'.includePatterns →
        applyFilters items fs = applyFilters items fs')
    ∧ applyFilters
        [{ gid := "1", name := some "Launch plan", assignee := none, followers := [] },
         { gid := "42", name := some "Launch review", assignee := none, followers := [] },
         { gid := "7", name := some "Other", assignee := none, followers := [] }]
        { gidList := ["42"], excludePatterns := [], includePatterns := ["launch"] } =
      [{ gid := "1", name := some "Launch plan", assignee := none, followers := [] }] := by
  refine ⟨?_, ?_, by decide⟩
  · intro items fs
    rw [applyFilters, List.filter_filter, List.filter_filter]
    apply List.filter_congr
    intro it _
    rw [keepItem_eq_stages]
    by_cases h1 : inclKeep fs it <;> by_cases h2 : gidKeep fs it <;>
      by_cases h3 : exclKeep fs it <;> simp [h1, h2, h3]
  · intro items fs fs' hg he hi
    apply List.filter_congr
    intro it _
    exact keepItem_perm fs fs' it hg he hi

/-- C3 witness: the permutation-invariance clause applied at concrete lists. -/
theorem applyFilters_precedence_witness :
    applyFilters [{ gid := "1", name := some "Alpha Beta", assignee := none, followers := [] }]
        { gidList := ["5", "6"], excludePatterns := ["x", "y"], includePatterns := ["alpha", "beta"] } =
      applyFilters [{ gid := "1", name := some "Alpha Beta", assignee := none, followers := [] }]
        { gidList := ["6", "5"], excludePatterns := ["y", "x"], includePatterns := ["beta", "alpha"] } :=
  applyFilters_precedence.2.1 _ _ _ (by decide) (by decide) (by decide)

theorem applyFilters_empty_lists (items : List Item) (fs : FilterSettings)
    (h1 : fs.gidList = []) (h2 : fs.excludePatterns = [])
    (h3 : fs.includePatterns = []) : applyFilters items fs = items := by
  rw [applyFilters, List.filter_eq_self]
  intro it _
  simp [keepItem, h1, h2, h3]

/-- C10: with all three filter lists empty or absent, `_applyFilters` is
the identity — every item (including items with no `name` field) is kept
in its original order. -/
theorem applyFilters_default_identity :
    ∀ (items : List Item) (ty : EntityType) (s : Settings),
      (filtersFor ty s).gidList = [] →
      (filtersFor ty s).excludePatterns = [] →
      (filtersFor ty s).includePatterns = [] →
      applyFiltersFor items ty s = items := by
  intro items ty s h1 h2 h3
  exact applyFilters_empty_lists items (filtersFor ty s) h1 h2 h3

/-- C10 witness: default settings (all filter fields absent), one item
with a missing name. -/
theorem applyFilters_default_identity_witness :
    applyFiltersFor [{ gid := "9", name := none, assignee := none, followers := [] }]
        EntityType.task
        { apiKeyVerified := true, showOnlyMyTasks := false, currentUserId := none,
          selectedUserIds := none, excludedTaskGids := none, excludedProjectGids := none,
          excludedTaskPatterns := none, excludedProjectPatterns := none,
          includedTaskPatterns := some [], includedProjectPatterns := none } =
      [{ gid := "9", name := none, assignee := none, followers := [] }] :=
  applyFilters_default_identity _ _ _ (by decide) (by decide) (by decide)

/-- C4: in single-user mode the post-filter task set is exactly the
fetched tasks whose assignee GID equals the current user's GID; a task
assigned to another user that merely lists the current user as a
follower is excluded. -/
theorem singleUser_strict_assignee :
    (∀ (uid : String) (tasks : List Item) (t : Item),
        t ∈ singleUserFilter uid tasks ↔
          t ∈ tasks ∧ ∃ a, t.assignee = some a ∧ a.gid = uid)
    ∧ singleUserFilter "U1"
        [{ gid := "t1", name := some "Mine", assignee := some { gid := "U1", name := none },
           followers := [] },
         { gid := "t2", name := some "Theirs", assignee := some { gid := "U2", name := none },
           followers := ["U1"] }] =
      [{ gid := "t1", name := some "Mine", assignee := some { gid := "U1", name := none },
         followers := [] }] := by
  refine ⟨?_, by decide⟩
  intro uid tasks t
  rw [singleUserFilter, List.mem_filter]
  cases ha : t.assignee <;> simp [ha]

/-- C4 witness: the characterization applied at a concrete task owned by
the current user. -/
theorem singleUser_strict_assignee_witness :
    ({ gid := "t1", name := some "Mine", assignee := some { gid := "U1", name := none },
        followers := [] } : Item) ∈
      singleUserFilter "U1"
        [{ gid := "t1", name := some "Mine", assignee := some { gid := "U1", name := none },
           followers := [] },
         { gid := "t2", name := some "Theirs", assignee := some { gid := "U2", name := none },
           followers := ["U1"] }] :=
  (singleUser_strict_assignee.1 "U1" _ _).mpr ⟨by decide, ⟨_, rfl, rfl⟩⟩

theorem foldl_mergeStep (selected : List String) :
    ∀ (l : List Item) (seen : List String) (out : List Item),
      l.foldl (mergeStep selected) (seen, out) =
        ((dedupGo seen (l.filter (taskPasses selected))).1,
          out ++ (dedupGo seen (l.filter (taskPasses selected))).2) := by
  intro l
  induction l with
  | nil => intro seen out; simp [dedupGo]
  | cons t ts ih =>
    intro seen out
    by_cases hp : taskPasses selected t
    · by_cases hs : seen.contains t.gid
      · simp only [List.foldl_cons, mergeStep, hs, hp, List.filter_cons]
        simp only [hp, if_pos rfl, dedupGo, hs, if_true, Bool.not_true, Bool.false_and]
        simpa using ih seen out
      · simp only [List.foldl_cons, mergeStep, hs, hp, List.filter_cons]
        simp only [hp, if_pos rfl, dedupGo, hs]
        simp only [Bool.not_false, Bool.true_and, if_true, if_false, Bool.false_eq_true]
        rw [ih (t.gid :: seen) (out ++ [t])]
        simp
    · by_cases hs : seen.contains t.gid <;>
        · simp only [List.foldl_cons, mergeStep, hp, List.filter_cons]
          simp only [hp, Bool.and_false, if_false, Bool.false_eq_true, ite_false]
          exact ih seen out

theorem mergeTaskSets_eq_dedup (selected : List String) (sets : List (List Item)) :
    mergeTaskSets selected sets =
      dedupFirstByGid ((sets.flatten).filter (taskPasses selected)) := by
  rw [mergeTaskSets, ← List.foldl_flatten, foldl_mergeStep, dedupFirstByGid]
  simp

theorem dedupGo_gid_not_seen :
    ∀ (l : List Item) (seen : List String) (t : Item),
      t ∈ (dedupGo seen l).2 → ¬ (seen.contains t.gid = true) := by
  intro l
  induction l with
  | nil => intro seen t ht; simp [dedupGo] at ht
  | cons u ts ih =>
    intro seen t ht
    by_cases hs : seen.contains u.gid
    · rw [dedupGo, if_pos hs] at ht
      exact ih seen t ht
    · rw [dedupGo, if_neg hs] at ht
      simp only [List.mem_cons] at ht
      rcases ht with rfl | ht
      · exact fun hc => hs hc
      · intro hc
        have := ih (u.gid :: seen) t ht
        exact this (by simp [List.contains, List.elem_iff] at hc ⊢; exact Or.inr hc)

theorem dedupGo_nodup_gids :
    ∀ (l : List Item) (seen : List String),
      (((dedupGo seen l).2.map Item.gid)).Nodup := by
  intro l
  induction l with
  | nil => intro seen; simp [dedupGo]
  | cons u ts ih =>
    intro seen
    by_cases hs : seen.contains u.gid
    · rw [dedupGo, if_pos hs]; exact ih seen
    · rw [dedupGo, if_neg hs]
      simp only [List.map_cons, List.nodup_cons]
      refine ⟨?_, ih (u.gid :: seen)⟩
      intro hmem
      obtain ⟨t, ht, hgid⟩ := List.mem_map.mp hmem
      have := dedupGo_gid_not_seen ts (u.gid :: seen) t ht
      exact this (by simp [List.contains, List.elem_iff, hgid])

theorem dedupGo_subset :
    ∀ (l : List Item) (seen : List String) (t : Item),
      t ∈ (dedupGo seen l).2 → t ∈ l := by
  intro l
  induction l with
  | nil => intro seen t ht; simp [dedupGo] at ht
  | cons u ts ih =>
    intro seen t ht
    by_cases hs : seen.contains u.gid
    · rw [dedupGo, if_pos hs] at ht
      exact List.mem_cons_of_mem u (ih seen t ht)
    · rw [dedupGo, if_neg hs] at ht
      simp only [List.mem_cons] at ht
      rcases ht with rfl | ht
      · exact List.mem_cons_self t ts
      · exact List.mem_cons_of_mem u (ih (u.gid :: seen) t ht)

theorem dedupGo_first :
    ∀ (l : List Item) (seen : List String) (t : Item),
      t ∈ (dedupGo seen l).2 →
      l.find? (fun u => u.gid == t.gid) = some t := by
  intro l
  induction l with
  | nil => intro seen t ht; simp [dedupGo] at ht
  | cons u ts ih =>
    intro seen t ht
    by_cases hs : seen.contains u.gid
    · rw [dedupGo, if_pos hs] at ht
      have hne : (u.gid == t.gid) = false := by
        rw [beq_eq_false_iff_ne]
        intro hgid
        have := dedupGo_gid_not_seen ts seen t ht
        rw [← hgid] at this
        exact this hs
      rw [List.find?_cons, hne]
      exact ih seen t ht
    · rw [dedupGo, if_neg hs] at ht
      simp only [List.mem_cons] at ht
      rcases ht with rfl | ht
      · rw [List.find?_cons]
        simp
      · have hne : (u.gid == t.gid) = false := by
          rw [beq_eq_false_iff_ne]
          intro hgid
          have := dedupGo_gid_not_seen ts (u.gid :: seen) t ht
          exact this (by simp [List.contains, List.elem_iff, hgid])
        rw [List.find?_cons, hne]
        exact ih (u.gid :: seen) t ht

theorem dedupGo_covers :
    ∀ (l : List Item) (seen : List String) (t : Item),
      t ∈ l → seen.contains t.gid = true ∨ ∃ u ∈ (dedupGo seen l).2, u.gid = t.gid := by
  intro l
  induction l with
  | nil => intro seen t ht; simp at ht
  | cons u ts ih =>
    intro seen t ht
    simp only [List.mem_cons] at ht
    by_cases hs : seen.contains u.gid
    · rw [dedupGo, if_pos hs]
      rcases ht with rfl | ht
      · exact Or.inl hs
      · exact ih seen t ht
    · rw [dedupGo, if_neg hs]
      rcases ht with rfl | ht
      · exact Or.inr ⟨t, by simp, rfl⟩
      · rcases ih (u.gid :: seen) t ht with hseen | ⟨v, hv, hgid⟩
        · by_cases hug : u.gid = t.gid
          · exact Or.inr ⟨u, by simp, hug⟩
          · left
            simp only [List.contains, List.elem_iff, List.mem_cons] at hseen ⊢
            rcases hseen with h | h
            · exact absurd h.symm hug
            · exact h
        · exact Or.inr ⟨v, by simp only [List.mem_cons]; exact Or.inr hv, hgid⟩

/-- C5: the multi-user merge equals first-seen-wins deduplication (by
gid) of the assignee-filtered concatenation of the per-user fetches: each
gid appears exactly once, only tasks whose assignee is in the selected
set are retained, every retained record is the first-encountered passing
record for its gid in traversal order, and every passing gid is covered. -/
theorem mergeTaskSets_spec :
    ∀ (selected : List String) (sets : List (List Item)),
      mergeTaskSets selected sets =
          dedupFirstByGid ((sets.flatten).filter (taskPasses selected))
      ∧ ((mergeTaskSets selected sets).map Item.gid).Nodup
      ∧ (∀ t ∈ mergeTaskSets selected sets, taskPasses selected t = true)
      ∧ (∀ t ∈ mergeTaskSets selected sets,
          ((sets.flatten).filter (taskPasses selected)).find?
            (fun u => u.gid == t.gid) = some t)
      ∧ (∀ t ∈ sets.flatten, taskPasses selected t = true →
          ∃ u ∈ mergeTaskSets selected sets, u.gid = t.gid) := by
  intro selected sets
  have heq := mergeTaskSets_eq_dedup selected sets
  refine ⟨heq, ?_, ?_, ?_, ?_⟩
  · rw [heq]; exact dedupGo_nodup_gids _ []
  · intro t ht
    rw [heq] at ht
    have := dedupGo_subset _ [] t ht
    exact (List.mem_filter.mp this).2
  · intro t ht
    rw [heq] at ht
    exact dedupGo_first _ [] t ht
  · intro t ht hpass
    have hmem : t ∈ (sets.flatten).filter (taskPasses selected) :=
      List.mem_filter.mpr ⟨ht, hpass⟩
    rcases dedupGo_covers _ [] t hmem with hseen | hc
    · simp [List.contains] at hseen
    · rw [heq]; exact hc

/-- C5 witness: two overlapping per-user fetches; the theorem's coverage
clause applied to a concrete overlapping task. -/
theorem mergeTaskSets_spec_witness :
    ∃ u ∈ mergeTaskSets ["U1", "U2"]
        [[{ gid := "t1", name := none, assignee := some { gid := "U1", name := none },
            followers := [] }],
         [{ gid := "t1", name := none, assignee := some { gid := "U2", name := none },
            followers := [] },
          { gid := "t2", name := none, assignee := some { gid := "U2", name := none },
            followers := [] }]],
      u.gid = "t2" :=
  (mergeTaskSets_spec ["U1", "U2"] _).2.2.2.2
    { gid := "t2", name := none, assignee := some { gid := "U2", name := none },
      followers := [] }
    (by decide) (by decide)

theorem fetchGo_429 (server : Nat → HttpResp)
    (h429 : ∀ i, (server i).status = 429) :
    ∀ (k : Nat), k ≤ MAX_RETRIES →
      fetchGo server k =
        (Except.error ("Asana API 429: " ++ (server MAX_RETRIES).body),
          MAX_RETRIES + 1 - k,
          (List.range (MAX_RETRIES - k)).map
            (fun i => min ((server (k + i)).retryAfter.getD 30) 120 * 1000)) := by
  intro k hk
  obtain ⟨n, hmeasure⟩ : ∃ n, MAX_RETRIES - k = n := ⟨_, rfl⟩
  induction n generalizing k with
  | zero =>
    have hkeq : k = MAX_RETRIES := by omega
    subst hkeq
    rw [fetchGo]
    have hcond : ¬ ((server MAX_RETRIES).status = 429 ∧ MAX_RETRIES < MAX_RETRIES) := by
      intro ⟨_, h⟩; exact absurd h (by omega)
    rw [dif_neg hcond]
    have hok : respOk (server MAX_RETRIES) = false := by
      simp [respOk, h429 MAX_RETRIES]
    rw [if_neg (by simp [hok])]
    simp only [h429 MAX_RETRIES, Nat.sub_self, List.range_zero, List.map_nil]
    rfl
  | succ n ih =>
    have hklt : k < MAX_RETRIES := by omega
    rw [fetchGo]
    rw [dif_pos ⟨h429 k, hklt⟩]
    have hrec := ih (k + 1) (by omega) (by omega)
    rw [hrec]
    have hrange : MAX_RETRIES - k = (MAX_RETRIES - (k + 1)) + 1 := by omega
    refine Prod.ext rfl (Prod.ext ?_ ?_)
    · show MAX_RETRIES + 1 - (k + 1) + 1 = MAX_RETRIES + 1 - k
      omega
    · show min ((server k).retryAfter.getD 30) 120 * 1000 ::
          (List.range (MAX_RETRIES - (k + 1))).map
            (fun i => min ((server (k + 1 + i)).retryAfter.getD 30) 120 * 1000) =
        (List.range (MAX_RETRIES - k)).map
          (fun i => min ((server (k + i)).retryAfter.getD 30) 120 * 1000)
      rw [hrange, List.range_succ_eq_map, List.map_cons, List.map_map]
      refine congr_arg₂ List.cons ?_ ?_
      · simp
      · apply List.map_congr_left
        intro i _
        have heq : k + 1 + i = k + (i + 1) := by omega
        simp [Function.comp, heq]

/-- C1: on consecutive 429 responses `_fetch` waits
`min(Retry-After, 120) * 1000` ms before each retry — at most 120s even
for `Retry-After: 9999` — and performs exactly `MAX_RETRIES = 3` retries
(4 requests in total): once the retry ceiling is reached the rate-limit
error is surfaced instead of a 4th retry. -/
theorem fetch_rate_limit_backoff (server : Nat → HttpResp)
    (h429 : ∀ i, (server i).status = 429) :
    (∃ e, (fetchGo server 0).1 = Except.error e)
    ∧ (fetchGo server 0).2.1 = MAX_RETRIES + 1
    ∧ (fetchGo server 0).2.2 =
        (List.range MAX_RETRIES).map
          (fun i => min ((server i).retryAfter.getD 30) 120 * 1000)
    ∧ ∀ w ∈ (fetchGo server 0).2.2, w ≤ 120000 := by
  have h := fetchGo_429 server h429 0 (by omega)
  refine ⟨⟨_, by rw [h]⟩, by rw [h]; rfl, by rw [h]; simp, ?_⟩
  rw [h]
  simp only [List.mem_map, List.mem_range]
  rintro w ⟨i, -, rfl⟩
  have : min ((server (0 + i)).retryAfter.getD 30) 120 ≤ 120 := min_le_right _ _
  omega

/-- C1 witness: a mocked server that always answers 429 with
`Retry-After: 9999`; each of the 3 backoff waits is exactly 120000 ms,
4 requests are made, and the call surfaces the rate-limit error. -/
theorem fetch_rate_limit_backoff_witness :
    (∃ e, (fetchGo (fun _ => { status := 429, retryAfter := some 9999, body := "rate limited" }) 0).1 =
        Except.error e)
    ∧ (fetchGo (fun _ => { status := 429, retryAfter := some 9999, body := "rate limited" }) 0).2.1 = 4
    ∧ (fetchGo (fun _ => { status := 429, retryAfter := some 9999, body := "rate limited" }) 0).2.2 =
        [120000, 120000, 120000] := by
  have h := fetch_rate_limit_backoff
    (fun _ => { status := 429, retryAfter := some 9999, body := "rate limited" })
    (fun _ => rfl)
  exact ⟨h.1, h.2.1, by rw [h.2.2.1]; rfl⟩

/-- C6: against a mocked source of K = `front.length + 1` pages in which
every page but the last carries a next-page offset and the last does
not, `_fetchAll` terminates with exactly K requests and returns the
concatenation of all K pages' data in page order; moreover it stops
immediately at the first page without a next-page offset. -/
theorem fetchAll_pagination {α : Type} :
    (∀ (front : List (Page α)) (last : Page α),
        (∀ p ∈ front, hasNext p = true) →
        hasNext last = false →
        (∀ p ∈ front ++ [last], p.data.length ≤ 100) →
        fetchAllGo (front ++ [last]) =
          (((front ++ [last]).map Page.data).flatten, front.length + 1))
    ∧ (∀ (p : Page α) (rest : List (Page α)),
        hasNext p = false → fetchAllGo (p :: rest) = (p.data, 1)) := by
  constructor
  · intro front last hfront hlast hsize
    clear hsize
    induction front with
    | nil =>
      simp only [List.nil_append, List.map_cons, List.map_nil, List.flatten]
      rw [fetchAllGo, if_neg (by simp [hlast])]
      simp
    | cons p ps ih =>
      have hp : hasNext p = true := hfront p (by simp)
      rw [List.cons_append, fetchAllGo, if_pos hp]
      rw [ih (fun q hq => hfront q (by simp [hq]))]
      simp
  · intro p rest hp
    rw [fetchAllGo, if_neg (by simp [hp])]

/-- C6 witness: a concrete 3-page source (pages of sizes 2, 2, 1) yields
the 5-element concatenation with exactly 3 requests. -/
theorem fetchAll_pagination_witness :
    fetchAllGo [({ data := ["a", "b"], next := some "off1" } : Page String),
                { data := ["c", "d"], next := some "off2" },
                { data := ["e"], next := none }] =
      (["a", "b", "c", "d", "e"], 3) := by
  have h := (fetchAll_pagination (α := String)).1
    [{ data := ["a", "b"], next := some "off1" }, { data := ["c", "d"], next := some "off2" }]
    { data := ["e"], next := none }
    (by decide) (by decide) (by decide)
  simpa using h

theorem getSettings_upsert_self (k : String) (v : JVal) (rows : List (String × JVal)) :
    getSettings (upsertSetting k v rows) k = some v := by
  induction rows with
  | nil => simp [upsertSetting, getSettings_cons]
  | cons r rest ih =>
    obtain ⟨a, b⟩ := r
    by_cases h : a = k
    · subst h
      simp [upsertSetting, getSettings_cons]
    · rw [show upsertSetting k v ((a, b) :: rest) = (a, b) :: upsertSetting k v rest from by
        simp [upsertSetting, h]]
      rw [getSettings_cons, if_neg h]
      exact ih

theorem getSettings_upsert_other (k k' : String) (v : JVal)
    (rows : List (String × JVal)) (hne : k' ≠ k) :
    getSettings (upsertSetting k v rows) k' = getSettings rows k' := by
  induction rows with
  | nil =>
    show getSettings ((k, v) :: []) k' = getSettings [] k'
    rw [getSettings_cons, if_neg (fun h => hne h.symm)]
  | cons r rest ih =>
    obtain ⟨a, b⟩ := r
    by_cases h : a = k
    · subst h
      rw [show upsertSetting a v ((a, b) :: rest) = (a, v) :: rest from by
        simp [upsertSetting]]
      rw [getSettings_cons, getSettings_cons]
      rcases eq_or_ne a k' with hak | hak
      · exact absurd hak.symm hne
      · rw [if_neg hak, if_neg hak]
    · rw [show upsertSetting k v ((a, b) :: rest) = (a, b) :: upsertSetting k v rest from by
        simp [upsertSetting, h]]
      rw [getSettings_cons, getSettings_cons]
      rcases eq_or_ne a k' with hak | hak
      · rw [if_pos hak, if_pos hak]
      · rw [if_neg hak, if_neg hak]
        exact ih

theorem getSettings_setSettings_untouched (updates : List (String × JVal))
    (rows : List (String × JVal)) (k : String)
    (hk : ∀ kv ∈ updates, kv.1 ≠ k) :
    getSettings (setSettings updates rows) k = getSettings rows k := by
  induction updates generalizing rows with
  | nil => rfl
  | cons kv rest ih =>
    have hstep : setSettings (kv :: rest) rows =
        setSettings rest (upsertSetting kv.1 kv.2 rows) := rfl
    rw [hstep, ih (upsertSetting kv.1 kv.2 rows) (fun x hx => hk x (List.mem_cons_of_mem kv hx))]
    exact getSettings_upsert_other kv.1 k kv.2 rows (Ne.symm (hk kv (by simp)))

theorem getSettings_setSettings_mem (updates : List (String × JVal))
    (rows : List (String × JVal)) (k : String) (v : JVal)
    (hmem : (k, v) ∈ updates) (hnodup : (updates.map Prod.fst).Nodup) :
    getSettings (setSettings updates rows) k = some v := by
  induction updates generalizing rows with
  | nil => simp at hmem
  | cons kv rest ih =>
    have hstep : setSettings (kv :: rest) rows =
        setSettings rest (upsertSetting kv.1 kv.2 rows) := rfl
    rw [hstep]
    simp only [List.mem_cons] at hmem
    simp only [List.map_cons, List.nodup_cons] at hnodup
    rcases hmem with heq | hmem
    · have hkk : kv.1 = k := by rw [← heq]
      have hnot : ∀ x ∈ rest, x.1 ≠ k := by
        intro x hx hxk
        have hx1 : x.1 ∈ rest.map Prod.fst := List.mem_map.mpr ⟨x, hx, rfl⟩
        rw [hxk, ← hkk] at hx1
        exact hnodup.1 hx1
      rw [getSettings_setSettings_untouched rest _ k hnot]
      rw [← heq]
      exact getSettings_upsert_self k v rows
    · exact ih (upsertSetting kv.1 kv.2 rows) hmem hnodup.2

/-- C8: `setSettings({a:1}); setSettings({b:2}); getSettings()` yields
`{a:1, b:2}`; in general a batch is applied as one transaction whose
keys are all visible with their batch values afterwards, and every key
not mentioned in the batch keeps its previous value. -/
theorem setSettings_roundtrip :
    (getSettings (setSettings [("b", JVal.jnum 2)]
        (setSettings [("a", JVal.jnum 1)] [])) "a" = some (JVal.jnum 1)
      ∧ getSettings (setSettings [("b", JVal.jnum 2)]
          (setSettings [("a", JVal.jnum 1)] [])) "b" = some (JVal.jnum 2)
      ∧ ∀ k, k ≠ "a" → k ≠ "b" →
          getSettings (setSettings [("b", JVal.jnum 2)]
            (setSettings [("a", JVal.jnum 1)] [])) k = none)
    ∧ (∀ (updates : List (String × JVal)) (rows : List (String × JVal)) (k : String),
        (∀ kv ∈ updates, kv.1 ≠ k) →
        getSettings (setSettings updates rows) k = getSettings rows k)
    ∧ (∀ (updates : List (String × JVal)) (rows : List (String × JVal)) (k : String) (v : JVal),
        (k, v) ∈ updates → (updates.map Prod.fst).Nodup →
        getSettings (setSettings updates rows) k = some v) := by
  refine ⟨⟨by rfl, by rfl, ?_⟩,
    getSettings_setSettings_untouched, getSettings_setSettings_mem⟩
  intro k hka hkb
  have hrows : setSettings [("b", JVal.jnum 2)] (setSettings [("a", JVal.jnum 1)] []) =
      [("a", JVal.jnum 1), ("b", JVal.jnum 2)] := rfl
  rw [hrows, getSettings_cons, if_neg (fun h => hka h.symm), getSettings_cons,
    if_neg (fun h => hkb h.symm)]
  rfl

/-- C8 witness: the frame clause applied at a concrete batch and key. -/
theorem setSettings_roundtrip_witness :
    getSettings (setSettings [("b", JVal.jnum 2)] [("a", JVal.jnum 1)]) "a" =
      getSettings [("a", JVal.jnum 1)] "a" :=
  setSettings_roundtrip.2.1 [("b", JVal.jnum 2)] [("a", JVal.jnum 1)] "a"
    (by decide)

/-- C9 (refuted on the code, evaluated at the failing input): with a
primary database whose corruption passes open but fails quick_check and
a good stale backup on disk, the unconditional `_backup()` clobbers the
good backup with the corrupt file, the restore tier copies that corrupt
backup over the primary and reopens it with no integrity re-check, and
the pragma/schema initialization on the still-corrupt handle then
throws — constructing the Store fails rather than always coming up
usable (backup-restored or empty).  Only the other corruption mode
(open itself throws) falls through to a fresh empty store as claimed. -/
theorem store_recovery_corrupt_clobbers_backup :
    (backupStep { dbFile := some DiskFile.corruptCheckFails, backupFile := some (DiskFile.good 7) }).backupFile =
      some DiskFile.corruptCheckFails
    ∧ openDatabase (backupStep { dbFile := some DiskFile.corruptCheckFails, backupFile := some (DiskFile.good 7) }) =
      Except.ok Db.corrupt
    ∧ storeInit { dbFile := some DiskFile.corruptCheckFails, backupFile := some (DiskFile.good 7) } =
      Except.error "SQLITE_CORRUPT: database disk image is malformed"
    ∧ storeInit { dbFile := some DiskFile.corruptOpenFails, backupFile := some (DiskFile.good 7) } =
      Except.ok Db.empty :=
  ⟨rfl, rfl, rfl, rfl⟩

/-- C7: every poll cycle delivers at most one event (as a total
function it also cannot throw across the engine boundary); a cycle
emits the error event `{error: e}` exactly when some remote fetch along
its path fails with `e` — and in that case the previously cached task
and project snapshots are left unchanged. -/
theorem poll_error_handling :
    ∀ (env : RemoteEnv) (st : StoreState),
      ((pollGo env st).2.length ≤ 1)
      ∧ (∀ e, fetchFailure env st = some e ↔ (pollGo env st).2 = [PollEvent.error e])
      ∧ (∀ e, (pollGo env st).2 = [PollEvent.error e] →
          (pollGo env st).1.cachedTasks = st.cachedTasks
            ∧ (pollGo env st).1.cachedProjects = st.cachedProjects) := by
  intro env st
  simp only [pollGo, fetchFailure]
  cases hapi : st.settings.apiKeyVerified with
  | false => simp
  | true =>
    simp only [Bool.not_true, if_false, Bool.false_eq_true]
    cases hws : env.workspaces with
    | error e => simp [hws]
    | ok ws =>
      cases ws with
      | nil => simp [hws]
      | cons wg rest =>
        cases hus : usersFetch env wg st with
        | error e => simp [hws, hus]
        | ok us =>
          cases htk : pollTasksFetch env wg st.settings with
          | error e => simp [hws, hus, htk]
          | ok tasks0 =>
            cases hpj : env.projectsOf wg with
            | error e => simp [hws, hus, htk, hpj]
            | ok ps => simp [hws, hus, htk, hpj]

/-- C7 witness: a concrete cycle whose projects fetch fails; it emits
exactly the one error event and both cached snapshots survive. -/
theorem poll_error_handling_witness :
    (pollGo
        { workspaces := Except.ok ["W1"],
          usersOf := fun _ => Except.ok [{ gid := "U1", name := none }],
          tasksFor := fun _ _ => Except.ok [],
          projectsOf := fun _ => Except.error "boom" }
        { settings :=
            { apiKeyVerified := true, showOnlyMyTasks := false, currentUserId := none,
              selectedUserIds := none, excludedTaskGids := none, excludedProjectGids := none,
              excludedTaskPatterns := none, excludedProjectPatterns := none,
              includedTaskPatterns := none, includedProjectPatterns := none },
          cachedUsers := [{ gid := "U1", name := none }],
          cachedTasks := [{ gid := "t1", name := none, assignee := none, followers := [] }],
          cachedProjects := [{ gid := "p1", name := none, assignee := none, followers := [] }] }).2 =
      [PollEvent.error "boom"] :=
  ((poll_error_handling
      { workspaces := Except.ok ["W1"],
        usersOf := fun _ => Except.ok [{ gid := "U1", name := none }],
        tasksFor := fun _ _ => Except.ok [],
        projectsOf := fun _ => Except.error "boom" }
      { settings :=
          { apiKeyVerified := true, showOnlyMyTasks := false, currentUserId := none,
            selectedUserIds := none, excludedTaskGids := none, excludedProjectGids := none,
            excludedTaskPatterns := none, excludedProjectPatterns := none,
            includedTaskPatterns := none, includedProjectPatterns := none },
        cachedUsers := [{ gid := "U1", name := none }],
        cachedTasks := [{ gid := "t1", name := none, assignee := none, followers := [] }],
        cachedProjects := [{ gid := "p1", name := none, assignee := none, followers := [] }] }).2.1
    "boom").mp (by rfl)

/-- C2 (code evaluated at the failing input): with one poll cycle in
flight, a timer tick — and likewise a manual `refresh()` — starts a
second concurrent cycle (`inFlight` becomes 2), because `_poll()` is
invoked unconditionally and no re-entrance guard exists in the source;
the claim's no-op behaviour would have kept it at 1. -/
theorem poll_trigger_overlapping_cycle :
    engineStep 1 EngineTrigger.tick = 2
    ∧ engineStep 1 EngineTrigger.manualRefresh = 2 :=
  ⟨rfl, rfl⟩

end Panoptisana
